import Mathlib

/-
Verification of the setup-resolution, reconciliation and editing logic of
`cdn_geo_restriction_manager.py` (CloudFrontGeoRestrictionManager).

The Python source is shallowly embedded below: every function that a claim
refers to is translated into an executable Lean definition that follows the
Python control flow statement by statement.  Python dictionaries become
association lists, `None`-able string fields become `Option String`, and
Python's truthiness test on optional string fields (`if region:`) becomes
`otruthy`.  Python's substring test (`needle in hay`) and `str.replace` are
modelled character-list by character-list.
-/

namespace CdnGeo

/-- Python truthiness of an optional string field: `None` and `""` are falsy. -/
def otruthy : Option String → Bool
  | none => false
  | some s => !(s == "")

/-- `leadMatch n h`: the character list `n` is an initial segment of `h`. -/
def leadMatch : List Char → List Char → Bool
  | [], _ => true
  | _ :: _, [] => false
  | c :: cs, d :: ds => c == d && leadMatch cs ds

/-- `subMatch n h`: `n` occurs as a contiguous segment of `h`
(Python's `n in h` on strings). -/
def subMatch : List Char → List Char → Bool
  | n, [] => leadMatch n []
  | n, h :: t => leadMatch n (h :: t) || subMatch n t

/-- Python's `needle in hay` on strings. -/
def pyInStr (needle hay : String) : Bool :=
  subMatch needle.toList hay.toList

/-- Fuelled worker for Python's `str.replace(pat, "")`: removes the leftmost
occurrence of `pat` and continues after it, scanning left to right. -/
def replLoop (pat : List Char) : Nat → List Char → List Char
  | 0, l => l
  | _ + 1, [] => []
  | fuel + 1, c :: cs =>
    if pat ≠ [] && leadMatch pat (c :: cs) then
      replLoop pat fuel (List.drop pat.length (c :: cs))
    else
      c :: replLoop pat fuel cs

/-- Python's `s.replace(pat, "")`: delete every (non-overlapping, leftmost
first) occurrence of `pat` in `s`. -/
def pyReplace (s pat : String) : String :=
  String.mk (replLoop pat.toList s.toList.length s.toList)

/-- Python's `s.upper()` (ASCII case mapping, character by character). -/
def pyUpper (s : String) : String :=
  String.mk (s.toList.map Char.toUpper)

/-- Python's `s.lower()` (ASCII case mapping, character by character). -/
def pyLower (s : String) : String :=
  String.mk (s.toList.map Char.toLower)

/-- Python's `s.strip()`: remove leading and trailing whitespace. -/
def pyStrip (s : String) : String :=
  String.mk
    (((s.toList.dropWhile Char.isWhitespace).reverse.dropWhile
        Char.isWhitespace).reverse)

/-- Last-wins lookup in an association list: this is the value a Python dict
built from the list of pairs would associate to `k`. -/
def lookupLast (l : List (String × String)) (k : String) : Option String :=
  (l.reverse.find? (fun p => p.1 == k)).map Prod.snd

/-- Python's `k in d` on a dict modelled as an association list. -/
def hasKey (l : List (String × String)) (k : String) : Bool :=
  l.any (fun p => p.1 == k)

/-! ## Reconciliation (check_channel_whitelist_status, lines 499-520)

The comparison of the required-country list against the distribution's
geo-restriction record. -/

/-- The reconciliation logic of `check_channel_whitelist_status`:
given the required countries, the record's `RestrictionType` and its
`Items`, return `(missing_countries, blocked_countries)`. -/
def check_channel_whitelist_status (countries : List String)
    (restriction_type : String) (allowed_countries : List String) :
    List String × List String :=
  if restriction_type = "whitelist" then
    (countries.filter (fun c => !(allowed_countries.contains c)), [])
  else if restriction_type = "blacklist" then
    ([], countries.filter (fun c => allowed_countries.contains c))
  else
    ([], [])

/-! ## Setup extraction (extract_setup_values, lines 326-341) -/

/-- A JSON-like tree: nested mappings, sequences and scalars. -/
inductive JVal where
  | jstr : String → JVal
  | jnum : Int → JVal
  | jbool : Bool → JVal
  | jnull : JVal
  | jarr : List JVal → JVal
  | jobj : List (String × JVal) → JVal

mutual

/-- Accumulator-passing translation of `extract_setup_values`: the Python
method appends into the shared `setup_values` list while recursing. -/
def exVal : JVal → List String → List String
  | JVal.jobj fs, acc => exFields fs acc
  | JVal.jarr xs, acc => exItems xs acc
  | _, acc => acc

/-- Fold over a mapping's items in order: `if key == 'setup' and
isinstance(value, str): append` / `elif isinstance(value, (dict, list)):
recurse` / otherwise skip. -/
def exFields : List (String × JVal) → List String → List String
  | [], acc => acc
  | (k, JVal.jstr s) :: rest, acc =>
      exFields rest (if k = "setup" then acc ++ [s] else acc)
  | (_, JVal.jarr xs) :: rest, acc => exFields rest (exItems xs acc)
  | (_, JVal.jobj fs) :: rest, acc => exFields rest (exFields fs acc)
  | _ :: rest, acc => exFields rest acc

/-- Fold of `exVal` over a sequence's items in order. -/
def exItems : List JVal → List String → List String
  | [], acc => acc
  | x :: rest, acc => exItems rest (exVal x acc)

end

/-- `extract_setup_values` as called by the program: fresh accumulator. -/
def extract_setup_values (data : JVal) : List String :=
  exVal data []

mutual

/-- Specification-side description of setup extraction: the depth-first,
first-encountered-order list of string values stored under keys named
`setup`, duplicates retained. -/
def setupStrs : JVal → List String
  | JVal.jobj fs => setupStrsFields fs
  | JVal.jarr xs => setupStrsItems xs
  | _ => []

/-- Strings contributed by a mapping's items, in order. -/
def setupStrsFields : List (String × JVal) → List String
  | [] => []
  | (k, JVal.jstr s) :: rest =>
      (if k = "setup" then [s] else []) ++ setupStrsFields rest
  | (_, JVal.jarr xs) :: rest => setupStrsItems xs ++ setupStrsFields rest
  | (_, JVal.jobj fs) :: rest => setupStrsFields fs ++ setupStrsFields rest
  | _ :: rest => setupStrsFields rest

/-- Strings contributed by a sequence's items, in order. -/
def setupStrsItems : List JVal → List String
  | [] => []
  | x :: rest => setupStrs x ++ setupStrsItems rest

end

/-! ## Cluster registry and region resolution (get_regions_for_setups,
lines 343-383) -/

/-- One cluster entry of `cluster_regions.json`: the `region`, `location`
and `country` fields, each possibly absent. -/
structure RInfo where
  region : Option String
  location : Option String
  country : Option String
deriving Repr, DecidableEq

/-- The cluster registry, partitioned by cloud provider, as an ordered
association list per partition (a Python dict preserves insertion order). -/
structure CRegistry where
  aws_eks_clusters : List (String × RInfo)
  gcp_gke_clusters : List (String × RInfo)
deriving Repr, DecidableEq

/-- The `regions` result dictionary: `{"aws": [...], "gcp": [...]}`. -/
structure Regions where
  aws : List String
  gcp : List String
deriving Repr, DecidableEq

/-- Scan of the AWS EKS partition: append the region and the cluster name on
an exact name match with a truthy region. -/
def awsLoop (setups : List String) :
    List (String × RInfo) → List String → List String →
    List String × List String
  | [], regAcc, foundAcc => (regAcc, foundAcc)
  | (n, info) :: rest, regAcc, foundAcc =>
    if n ∈ setups ∧ otruthy info.region then
      awsLoop setups rest (regAcc ++ [info.region.getD ""]) (foundAcc ++ [n])
    else
      awsLoop setups rest regAcc foundAcc

/-- Scan of the GCP GKE partition: exact name match first; otherwise compare
`cluster_name.replace("-gke", "")` against the setups and record the match as
`"base (mapped to cluster)"`. -/
def gcpLoop (setups : List String) :
    List (String × RInfo) → List String → List String →
    List String × List String
  | [], regAcc, foundAcc => (regAcc, foundAcc)
  | (n, info) :: rest, regAcc, foundAcc =>
    if n ∈ setups then
      if otruthy info.region then
        gcpLoop setups rest (regAcc ++ [info.region.getD ""]) (foundAcc ++ [n])
      else
        gcpLoop setups rest regAcc foundAcc
    else
      if pyReplace n "-gke" ∈ setups ∧ otruthy info.region then
        gcpLoop setups rest (regAcc ++ [info.region.getD ""])
          (foundAcc ++ [pyReplace n "-gke" ++ " (mapped to " ++ n ++ ")"])
      else
        gcpLoop setups rest regAcc foundAcc

/-- `get_regions_for_setups`: returns the regions dictionary together with
the `found_setups` and `not_found_setups` diagnostic lists the method stores
on the instance.  A setup is reported not-found when it is not a member of
`found_setups` and moreover—Python's `setup in found` being a substring
test—is not a substring of any `found_setups` entry. -/
def get_regions_for_setups (reg : CRegistry) (setups : List String) :
    Regions × List String × List String :=
  let aw := awsLoop setups reg.aws_eks_clusters [] []
  let gc := gcpLoop setups reg.gcp_gke_clusters [] aw.2
  let found := gc.2
  let notFound :=
    setups.filter (fun s => !(found.contains s) && !(found.any (fun f => pyInStr s f)))
  ({ aws := aw.1, gcp := gc.1 }, found, notFound)

/-! ## Country resolution (get_countries_for_regions, lines 385-421) -/

/-- The state the country loop accumulates: the deduplicated country list and
the two diagnostic lists stored on the instance. -/
structure CState where
  countries : List String
  found_locations : List String
  missing_country_clusters : List String
deriving Repr, DecidableEq

/-- `if country not in countries: countries.append(country)`. -/
def addCountryUnique (countries : List String) (c : String) : List String :=
  if c ∈ countries then countries else countries ++ [c]

/-- Processing of one cluster entry against one resolved region. -/
def cStep (region : String) (st : CState) (n : String) (info : RInfo) : CState :=
  if info.region = some region then
    if otruthy info.location && otruthy info.country then
      { st with
        found_locations :=
          st.found_locations ++ [region ++ " (" ++ info.location.getD "" ++ ")"],
        countries := addCountryUnique st.countries (info.country.getD "") }
    else if otruthy info.location && !(otruthy info.country) then
      { st with
        missing_country_clusters :=
          st.missing_country_clusters ++ [n ++ " (" ++ info.location.getD "" ++ ")"] }
    else
      { st with
        missing_country_clusters :=
          st.missing_country_clusters ++ [n ++ " (no location)"] }
  else st

/-- Fold of `cStep` over a cluster partition for a single region. -/
def cLoop (region : String) : List (String × RInfo) → CState → CState
  | [], st => st
  | (n, info) :: rest, st => cLoop region rest (cStep region st n info)

/-- Fold of `cLoop` over a resolved-region list. -/
def cRegionsLoop (clusters : List (String × RInfo)) : List String → CState → CState
  | [], st => st
  | r :: rs, st => cRegionsLoop clusters rs (cLoop r clusters st)

/-- `get_countries_for_regions`: the AWS regions are scanned against the AWS
partition, then the GCP regions against the GCP partition, threading the
accumulated state. -/
def get_countries_for_regions (reg : CRegistry) (regs : Regions) : CState :=
  cRegionsLoop reg.gcp_gke_clusters regs.gcp
    (cRegionsLoop reg.aws_eks_clusters regs.aws ⟨[], [], []⟩)

/-! ## The resolution pipeline with its instance-attribute diagnostics -/

/-- The mutable diagnostic attributes the manager instance carries
(`self.found_setups`, `self.not_found_setups`, `self.found_locations`,
`self.missing_country_clusters`). -/
structure MgrState where
  found_setups : List String
  not_found_setups : List String
  found_locations : List String
  missing_country_clusters : List String
deriving Repr, DecidableEq

/-- `get_regions_for_setups` as executed on the instance: it overwrites
`found_setups` and `not_found_setups`. -/
def get_regions_for_setups_st (reg : CRegistry) (setups : List String)
    (st : MgrState) : Regions × MgrState :=
  let res := get_regions_for_setups reg setups
  (res.1, { st with found_setups := res.2.1, not_found_setups := res.2.2 })

/-- `get_countries_for_regions` as executed on the instance: it overwrites
`found_locations` and `missing_country_clusters`. -/
def get_countries_for_regions_st (reg : CRegistry) (regs : Regions)
    (st : MgrState) : List String × MgrState :=
  let res := get_countries_for_regions reg regs
  (res.countries,
   { st with found_locations := res.found_locations,
             missing_country_clusters := res.missing_country_clusters })

/-- The resolution pipeline of `check_channel_whitelist_status`: extraction,
region resolution, country resolution, run on the instance state.  Returns
`((setups, regions, countries), final instance state)`. -/
def resolvePipeline (reg : CRegistry) (metadata : JVal) (st : MgrState) :
    (List String × Regions × List String) × MgrState :=
  let setups := extract_setup_values metadata
  let rr := get_regions_for_setups_st reg setups st
  let cc := get_countries_for_regions_st reg rr.1 rr.2
  ((setups, rr.1, cc.1), cc.2)

/-! ## Interactive editor steps (_add_country_to_list, lines 598-639, and
_remove_country_from_list, lines 641-686) -/

/-- The reverse country-code table of `_load_country_codes_reverse`:
`{v.lower(): k for k, v in country_codes.items()}`. -/
def reverseCodes (codes : List (String × String)) : List (String × String) :=
  codes.map (fun p => (pyLower p.2, p.1))

/-- The lookup `_add_country_to_list` performs on the (stripped, uppercased)
input: a key of `country_codes`, else the lowercased input as a key of the
reverse table. -/
def addLookup (country_input : String) (codes : List (String × String)) :
    Option String :=
  if hasKey codes country_input then some country_input
  else
    match lookupLast (reverseCodes codes) (pyLower country_input) with
    | some c => some c
    | none => none

/-- `_add_country_to_list` on raw input: returns the resulting working list
and the resolved country code (`none` when the input was rejected as
unknown or empty).  `confirm` is the operator's yes/no answer. -/
def add_country_to_list (rawInput : String) (confirm : Bool)
    (current_items : List String) (codes : List (String × String)) :
    List String × Option String :=
  let country_input := pyUpper (pyStrip rawInput)
  if country_input = "" then (current_items, none)
  else
    match addLookup country_input codes with
    | none => (current_items, none)
    | some c =>
      if c ∈ current_items then (current_items, some c)
      else if confirm then (current_items ++ [c], some c)
      else (current_items, some c)

/-- Display name of a code: `country_codes.get(code, code)`. -/
def nameOf (codes : List (String × String)) (c : String) : String :=
  (lookupLast codes c).getD c

/-- The name-scan of `_remove_country_from_list`: first code in the current
list whose display name contains the input case-insensitively. -/
def findRemoveMatch (choice : String) (codes : List (String × String)) :
    List String → Option String
  | [] => none
  | c :: rest =>
    if pyInStr (pyLower choice) (pyLower (nameOf codes c)) then some c
    else findRemoveMatch choice codes rest

/-- `_remove_country_from_list` on raw input: returns the resulting working
list.  An exact (uppercased) code match wins; otherwise the first display
name containing the input is matched; the final `if country_to_remove:` is
a Python truthiness test, so a matched empty-string code falls to the
not-found branch; the removal happens only on an affirmative
confirmation. -/
def remove_country_from_list (rawChoice : String) (confirm : Bool)
    (current_items : List String) (codes : List (String × String)) :
    List String :=
  if current_items = [] then current_items
  else
    let choice := pyStrip rawChoice
    if choice = "" then current_items
    else
      let target : Option String :=
        if pyUpper choice ∈ current_items then some (pyUpper choice)
        else findRemoveMatch choice codes current_items
      match target with
      | some c =>
        if c = "" then current_items
        else if confirm then current_items.erase c else current_items
      | none => current_items

/-! ## Distribution lookup across accounts (get_distribution_info,
lines 97-135) -/

/-- Outcome of `client.get_distribution` for one account: a response (with
or without a `Distribution` key), a `ClientError` with an error code, or a
non-Client exception. -/
inductive AwsResult where
  | okDist : Bool → AwsResult
  | clientErr : String → AwsResult
  | exnOther : AwsResult
deriving Repr, DecidableEq

/-- The account scan of `get_distribution_info`: accounts are queried in
order; the scan returns the first account whose response carries a
`Distribution`, continues past `NoSuchDistribution`, `AccessDenied`, other
client errors, malformed responses and unexpected exceptions, and stops
with `None` on `InvalidArgument`.  The second component records the
accounts actually queried, in order. -/
def scanAccounts : List (String × AwsResult) → List String →
    Option String × List String
  | [], queried => (none, queried)
  | (name, res) :: rest, queried =>
    let q := queried ++ [name]
    match res with
    | AwsResult.okDist true => (some name, q)
    | AwsResult.okDist false => scanAccounts rest q
    | AwsResult.clientErr code =>
      if code = "NoSuchDistribution" then scanAccounts rest q
      else if code = "AccessDenied" then scanAccounts rest q
      else if code = "InvalidArgument" then (none, q)
      else scanAccounts rest q
    | AwsResult.exnOther => scanAccounts rest q

/-- `get_distribution_info`: an empty or all-whitespace distribution id is
rejected before any account is queried. -/
def get_distribution_info (distribution_id : String)
    (accounts : List (String × AwsResult)) : Option String × List String :=
  if pyStrip distribution_id = "" then (none, [])
  else scanAccounts accounts []

/-! ## Applying changes (_apply_changes_to_cloudfront, lines 712-761) -/

/-- The `GeoRestriction` record written by the tool. -/
structure GeoRestriction where
  RestrictionType : String
  Quantity : Nat
  Items : List String
deriving Repr, DecidableEq

/-- The `Restrictions` field of a distribution config: the geo-restriction
entry plus whatever other keys the provider stores there. -/
structure RestrictionsRec where
  geo : Option GeoRestriction
  other : List (String × String)
deriving Repr, DecidableEq

/-- A distribution config: the `Restrictions` field plus all other fields,
kept opaque. -/
structure DistConfig where
  restrictions : Option RestrictionsRec
  other : List (String × String)
deriving Repr, DecidableEq

/-- Result of a `get_distribution` call: the config and the `ETag`. -/
structure FetchResult where
  dconfig : DistConfig
  etag : String
deriving Repr, DecidableEq

/-- The arguments of the `update_distribution` call. -/
structure UpdateCall where
  id : String
  distributionConfig : DistConfig
  ifMatch : String
deriving Repr, DecidableEq

/-- The config edit of `_apply_changes_to_cloudfront`: for `'none'`, delete
`GeoRestriction` and, if `Restrictions` is then empty, delete it too;
otherwise write a fresh `GeoRestriction` with the chosen type and items. -/
def updatedConfig (config : DistConfig) (restriction_type : String)
    (items : List String) : DistConfig :=
  if restriction_type = "none" then
    match config.restrictions with
    | none => config
    | some r =>
      if r.other = [] then { config with restrictions := none }
      else { config with restrictions := some { geo := none, other := r.other } }
  else
    match config.restrictions with
    | none =>
      { config with
        restrictions :=
          some { geo := some ⟨restriction_type, items.length, items⟩, other := [] } }
    | some r =>
      { config with
        restrictions :=
          some { r with geo := some ⟨restriction_type, items.length, items⟩ } }

/-- `_apply_changes_to_cloudfront`: the submitted config is built from the
session-start `distribution_info` snapshot, while the `ETag` comes from a
fresh `get_distribution` call made immediately before the update (only its
`ETag` is read; its config is discarded).  Returns the
`update_distribution` call issued, or `none` when the refetch failed. -/
def apply_changes_to_cloudfront (session : FetchResult)
    (distribution_id : String) (restriction_type : String)
    (items : List String) (refetch : Except String FetchResult) :
    Option UpdateCall :=
  let config := updatedConfig session.dconfig restriction_type items
  match refetch with
  | Except.error _ => none
  | Except.ok current =>
    some { id := distribution_id, distributionConfig := config,
           ifMatch := current.etag }

/-! ## Auxiliary definitions for the claims -/

/-- The registry with every cluster entry named `name` removed from both
partitions.  Used to state that an entry contributes nothing: resolving
against the registry with the entry deleted yields the same country list. -/
def eraseCluster (reg : CRegistry) (name : String) : CRegistry :=
  ⟨reg.aws_eks_clusters.filter (fun p => !(p.1 == name)),
   reg.gcp_gke_clusters.filter (fun p => !(p.1 == name))⟩

/-- The acceptance condition of claim C7, taken from the specification's
words: the input is a known country code (exact match) or matches a display
name case-insensitively as a substring.  To be compared with the acceptance
behaviour of `add_country_to_list`. -/
def claimAddAccepts (rawInput : String) (codes : List (String × String)) : Bool :=
  codes.any (fun p => p.1 == rawInput) ||
    codes.any (fun p => pyInStr (pyLower rawInput) (pyLower p.2))

/-- Concrete registry for the C2 counterexample: one AWS cluster whose name
has the unresolved setup as a proper substring. -/
def cexRegistryC2 : CRegistry := ⟨[("abc-def", ⟨some "r1", none, none⟩)], []⟩

/-- Concrete registry for the C4 counterexample: a GCP key that ends in
`-gke` but also contains `-gke` in its interior. -/
def cexRegistryC4 : CRegistry := ⟨[], [("a-gke-b-gke", ⟨some "r1", none, none⟩)]⟩

/-- Concrete registry for the C4 witness. -/
def wRegistryC4 : CRegistry := ⟨[], [("ab-gke", ⟨some "r1", none, none⟩)]⟩

/-- Concrete registry for the C5 witness: a GCP cluster with a location but
no country. -/
def wRegistryC5 : CRegistry := ⟨[], [("c1", ⟨some "r1", some "SC", none⟩)]⟩

/-- Country-code table with a single entry, for the C7 counterexample and
witness. -/
def cexCodesUS : List (String × String) := [("US", "United States")]

/-- Country-code table with two display names sharing the word `United`,
for the C8 counterexample and witness. -/
def cexCodesUK : List (String × String) :=
  [("US", "United States"), ("GB", "United Kingdom")]

/-- Session-start fetch for the C10 witness: a distribution whose config
carries a non-geo field and an extra `Restrictions` key. -/
def cexSessionC10 : FetchResult :=
  ⟨⟨some ⟨some ⟨"whitelist", 1, ["GB"]⟩, [("RestrictionsExtra", "x")]⟩,
    [("CallerReference", "abc")]⟩, "ETAGOLD"⟩

/-- Refetch result for the C10 witness: the remote record has changed and
carries a new `ETag`. -/
def cexRemoteC10 : FetchResult :=
  ⟨⟨none, [("CallerReference", "changed")]⟩, "ETAGNEW"⟩

/-- The update call the C10 witness expects. -/
def cexUpdateC10 : UpdateCall :=
  ⟨"E1", updatedConfig cexSessionC10.dconfig "whitelist" ["US"], "ETAGNEW"⟩

/-! # Theorems -/

/-! ## Generic helper lemmas -/

theorem leadMatch_self (l : List Char) : leadMatch l l = true := by
  induction l with
  | nil => rfl
  | cons c cs ih => simp [leadMatch, ih]

theorem pyInStr_self (s : String) : pyInStr s s = true := by
  unfold pyInStr
  cases h : s.toList with
  | nil => simp [subMatch, leadMatch]
  | cons c cs => simp [subMatch, ← h, leadMatch_self]

theorem contains_eq_mem (l : List String) (s : String) :
    l.contains s = true ↔ s ∈ l := by
  simp [List.contains]

/-! ## C1: reconciliation of the required countries against the record -/

/-- C1: reconciliation follows the three-case definition.  For a
`RestrictionType` other than `whitelist`/`blacklist` both result lists are
empty; for `whitelist` the missing list is exactly the required countries
not in `Items` (a sublist of the required list, hence in its order) and the
blocked list is empty; for `blacklist` the blocked list is exactly the
required countries in `Items` and the missing list is empty. -/
theorem check_channel_whitelist_status_cases (R : List String) (rtype : String)
    (A : List String) :
    (rtype ≠ "whitelist" → rtype ≠ "blacklist" →
      check_channel_whitelist_status R rtype A = ([], [])) ∧
    (check_channel_whitelist_status R rtype A).1.Sublist R ∧
    (check_channel_whitelist_status R rtype A).2.Sublist R ∧
    (rtype = "whitelist" →
      (∀ c, c ∈ (check_channel_whitelist_status R rtype A).1 ↔ c ∈ R ∧ c ∉ A) ∧
      (check_channel_whitelist_status R rtype A).2 = []) ∧
    (rtype = "blacklist" →
      (∀ c, c ∈ (check_channel_whitelist_status R rtype A).2 ↔ c ∈ R ∧ c ∈ A) ∧
      (check_channel_whitelist_status R rtype A).1 = []) := by
  unfold check_channel_whitelist_status
  split_ifs with h1 h2
  · subst h1
    refine ⟨fun h _ => absurd rfl h, List.filter_sublist R, List.nil_sublist R,
      fun _ => ⟨fun c => ?_, rfl⟩, fun h => absurd h (by decide)⟩
    simp [List.mem_filter, List.contains]
  · subst h2
    refine ⟨fun _ h => absurd rfl h, List.nil_sublist R, List.filter_sublist R,
      fun h => absurd h (Ne.symm (by decide)), fun _ => ⟨fun c => ?_, rfl⟩⟩
    simp [List.mem_filter, List.contains]
  · exact ⟨fun _ _ => rfl, List.nil_sublist R, List.nil_sublist R,
      fun h => absurd h h1, fun h => absurd h h2⟩

/-- Witness for C1 at concrete inputs, matching the spec's own examples. -/
theorem check_channel_whitelist_status_cases_witness :
    check_channel_whitelist_status ["US"] "none" ["GB"] = ([], []) ∧
    ("GB" ∈ (check_channel_whitelist_status ["US", "GB", "IN"] "whitelist"
        ["US", "IN"]).1 ↔
      ("GB" ∈ (["US", "GB", "IN"] : List String) ∧
        "GB" ∉ (["US", "IN"] : List String))) ∧
    ("GB" ∈ (check_channel_whitelist_status ["US", "GB"] "blacklist"
        ["GB", "FR"]).2 ↔
      ("GB" ∈ (["US", "GB"] : List String) ∧
        "GB" ∈ (["GB", "FR"] : List String))) :=
  ⟨(check_channel_whitelist_status_cases ["US"] "none" ["GB"]).1 (by decide)
      (by decide),
   ((check_channel_whitelist_status_cases ["US", "GB", "IN"] "whitelist"
      ["US", "IN"]).2.2.2.1 rfl).1 "GB",
   ((check_channel_whitelist_status_cases ["US", "GB"] "blacklist"
      ["GB", "FR"]).2.2.2.2 rfl).1 "GB"⟩

/-! ## C3: setup extraction equals its specification -/

mutual

theorem exVal_spec : ∀ (v : JVal) (acc : List String),
    exVal v acc = acc ++ setupStrs v
  | JVal.jstr _, _ => by simp [exVal, setupStrs]
  | JVal.jnum _, _ => by simp [exVal, setupStrs]
  | JVal.jbool _, _ => by simp [exVal, setupStrs]
  | JVal.jnull, _ => by simp [exVal, setupStrs]
  | JVal.jarr xs, acc => by
      simp only [exVal, setupStrs]; exact exItems_spec xs acc
  | JVal.jobj fs, acc => by
      simp only [exVal, setupStrs]; exact exFields_spec fs acc

theorem exFields_spec : ∀ (fs : List (String × JVal)) (acc : List String),
    exFields fs acc = acc ++ setupStrsFields fs
  | [], _ => by simp [exFields, setupStrsFields]
  | (k, JVal.jstr s) :: rest, acc => by
      by_cases h : k = "setup" <;>
        simp [exFields, setupStrsFields, h, exFields_spec rest]
  | (k, JVal.jnum n) :: rest, acc => by
      simp [exFields, setupStrsFields, exFields_spec rest]
  | (k, JVal.jbool b) :: rest, acc => by
      simp [exFields, setupStrsFields, exFields_spec rest]
  | (k, JVal.jnull) :: rest, acc => by
      simp [exFields, setupStrsFields, exFields_spec rest]
  | (k, JVal.jarr xs) :: rest, acc => by
      simp [exFields, setupStrsFields, exFields_spec rest, exItems_spec xs]
  | (k, JVal.jobj fs) :: rest, acc => by
      simp [exFields, setupStrsFields, exFields_spec rest, exFields_spec fs]

theorem exItems_spec : ∀ (xs : List JVal) (acc : List String),
    exItems xs acc = acc ++ setupStrsItems xs
  | [], _ => by simp [exItems, setupStrsItems]
  | x :: rest, acc => by
      simp [exItems, setupStrsItems, exItems_spec rest, exVal_spec x]

end

/-- C3: on every JSON-like tree, `extract_setup_values` returns exactly the
string values stored under keys named `setup`, in first-encountered
depth-first order with duplicates retained (the list `setupStrs` computes),
and in particular it totally evaluates on every such tree. -/
theorem extract_setup_values_spec (data : JVal) :
    extract_setup_values data = setupStrs data := by
  simpa using exVal_spec data []

/-! ## C6: the resolution pipeline is idempotent -/

/-- C6: running extraction, region resolution and country resolution a
second time on the same metadata and registry—starting from the instance
state the first run left behind—produces the same regions, the same
found/not-found setup lists, the same location/missing diagnostics and the
same country list as the first run.  The pipeline overwrites every
diagnostic attribute it reads, so its result does not depend on the
incoming instance state. -/
theorem resolvePipeline_idem (reg : CRegistry) (metadata : JVal)
    (st : MgrState) :
    resolvePipeline reg metadata (resolvePipeline reg metadata st).2 =
      resolvePipeline reg metadata st := rfl

/-! ## C2: completeness of the not-found list (corrected) -/

/-- C2 counterexample: with one AWS cluster `abc-def` and setups
`["abc-def", "abc"]`, the identifier `abc` has no exact match in either
partition and no GCP suffix-fallback match (the GCP partition is empty),
yet it does not appear in `not_found_setups`: Python's `setup in found`
check is a substring test and `abc` is a substring of the found entry
`abc-def`. -/
theorem not_found_setups_counterexample :
    "abc" ∈ (["abc-def", "abc"] : List String) ∧
    "abc" ∉ cexRegistryC2.aws_eks_clusters.map Prod.fst ∧
    cexRegistryC2.gcp_gke_clusters = [] ∧
    (get_regions_for_setups cexRegistryC2 ["abc-def", "abc"]).2.1 =
      ["abc-def"] ∧
    "abc" ∉ (get_regions_for_setups cexRegistryC2 ["abc-def", "abc"]).2.2 := by
  decide

/-- C2 (amended): every setup identifier with no exact match in either
provider partition and no GCP suffix-fallback match appears in the
not-found list, provided it is not a substring of any entry of the
found-setups diagnostics (the code suppresses such identifiers because its
`setup in found` membership test is Python's substring test). -/
theorem not_found_setups_complete (reg : CRegistry) (setups : List String)
    (s : String)
    (hs : s ∈ setups)
    (hexA : s ∉ reg.aws_eks_clusters.map Prod.fst)
    (hexG : s ∉ reg.gcp_gke_clusters.map Prod.fst)
    (hfb : ∀ p ∈ reg.gcp_gke_clusters, pyReplace p.1 "-gke" ≠ s)
    (hsub : ∀ f ∈ (get_regions_for_setups reg setups).2.1,
      pyInStr s f = false) :
    s ∈ (get_regions_for_setups reg setups).2.2 := by
  simp only [get_regions_for_setups] at hsub ⊢
  rw [List.mem_filter]
  refine ⟨hs, ?_⟩
  rw [Bool.and_eq_true, Bool.not_eq_true', Bool.not_eq_true']
  constructor
  · rw [← Bool.not_eq_true, contains_eq_mem]
    intro hmem
    have h := hsub s hmem
    rw [pyInStr_self s] at h
    exact Bool.true_eq_false.mp h
  · rw [List.any_eq_false]
    intro f hf
    simp [hsub f hf]

/-- Witness for C2 at a concrete input: an unmatched setup against an empty
registry lands in the not-found list. -/
theorem not_found_setups_complete_witness :
    "zz" ∈ (["zz"] : List String) ∧
    "zz" ∈ (get_regions_for_setups ⟨[], []⟩ ["zz"]).2.2 :=
  ⟨by decide,
   not_found_setups_complete ⟨[], []⟩ ["zz"] "zz" (by decide) (by decide)
     (by decide) (by decide) (by decide)⟩

/-! ## C4: the GCP suffix-fallback match (corrected) -/

theorem gcpLoop_mono (setups : List String) (cs : List (String × RInfo)) :
    ∀ (regAcc foundAcc : List String),
      (∀ x ∈ regAcc, x ∈ (gcpLoop setups cs regAcc foundAcc).1) ∧
      (∀ x ∈ foundAcc, x ∈ (gcpLoop setups cs regAcc foundAcc).2) := by
  induction cs with
  | nil => intro regAcc foundAcc; simp [gcpLoop]
  | cons p rest ih =>
    intro regAcc foundAcc
    obtain ⟨n, info⟩ := p
    simp only [gcpLoop]
    split_ifs with h1 h2 h3
    · exact ⟨fun x hx => (ih _ _).1 x (List.mem_append_left _ hx),
        fun x hx => (ih _ _).2 x (List.mem_append_left _ hx)⟩
    · exact ih _ _
    · exact ⟨fun x hx => (ih _ _).1 x (List.mem_append_left _ hx),
        fun x hx => (ih _ _).2 x (List.mem_append_left _ hx)⟩
    · exact ih _ _

theorem gcpLoop_fallback_mem (setups : List String)
    (cs : List (String × RInfo)) (k r : String) (info : RInfo)
    (hmem : (k, info) ∈ cs) (hk : k ∉ setups)
    (hbase : pyReplace k "-gke" ∈ setups)
    (hr : info.region = some r) (hr0 : r ≠ "") :
    ∀ (regAcc foundAcc : List String),
      r ∈ (gcpLoop setups cs regAcc foundAcc).1 ∧
      (pyReplace k "-gke" ++ " (mapped to " ++ k ++ ")") ∈
        (gcpLoop setups cs regAcc foundAcc).2 := by
  induction cs with
  | nil => cases hmem
  | cons p rest ih =>
    intro regAcc foundAcc
    rcases List.mem_cons.mp hmem with heq | htail
    · subst heq
      have htruthy : otruthy info.region = true := by
        simp [otruthy, hr, hr0]
      simp only [gcpLoop, if_neg hk, if_pos (And.intro hbase htruthy)]
      constructor
      · refine (gcpLoop_mono setups rest _ _).1 r ?_
        rw [hr]
        simp
      · exact (gcpLoop_mono setups rest _ _).2 _ (by simp)
    · obtain ⟨n, info'⟩ := p
      simp only [gcpLoop]
      split_ifs with h1 h2 h3 <;> exact ih htail _ _

/-- C4 counterexample: the registry key `a-gke-b-gke` equals the identifier
`a-gke-b` after stripping the fixed `-gke` suffix, and the identifier has no
exact match, yet resolution produces no GCP region and records no mapping:
the code computes the base name with `replace("-gke", "")`, which removes
the interior occurrence too, giving `a-b`. -/
theorem gcp_fallback_counterexample :
    ("a-gke-b" ++ "-gke" = "a-gke-b-gke") ∧
    "a-gke-b" ∉ cexRegistryC4.aws_eks_clusters.map Prod.fst ∧
    "a-gke-b" ∉ cexRegistryC4.gcp_gke_clusters.map Prod.fst ∧
    pyReplace "a-gke-b-gke" "-gke" = "a-b" ∧
    (get_regions_for_setups cexRegistryC4 ["a-gke-b"]).1.gcp = [] ∧
    (get_regions_for_setups cexRegistryC4 ["a-gke-b"]).2.1 = [] := by
  decide

/-- C4 (amended): when a setup identifier has no exact match in either
partition and a GCP registry key—itself not appearing in the setup
list—equals the identifier after removing every occurrence of `-gke`
(Python's `replace`, not a suffix strip), and that entry has a non-empty
region, resolution appends that region to the GCP region list and records
`identifier (mapped to key)` in the found-setups diagnostics. -/
theorem gcp_fallback_region_and_mapped (reg : CRegistry)
    (setups : List String) (s k r : String) (info : RInfo)
    (hexA : s ∉ reg.aws_eks_clusters.map Prod.fst)
    (hexG : s ∉ reg.gcp_gke_clusters.map Prod.fst)
    (hmem : (k, info) ∈ reg.gcp_gke_clusters)
    (hk : k ∉ setups)
    (hbase : pyReplace k "-gke" = s)
    (hs : s ∈ setups)
    (hr : info.region = some r) (hr0 : r ≠ "") :
    r ∈ (get_regions_for_setups reg setups).1.gcp ∧
    (s ++ " (mapped to " ++ k ++ ")") ∈
      (get_regions_for_setups reg setups).2.1 := by
  subst hbase
  simp only [get_regions_for_setups]
  exact gcpLoop_fallback_mem setups reg.gcp_gke_clusters k r info hmem hk hs
    hr hr0 [] _

/-- Witness for C4 at a concrete input: `ab` resolves through the registry
key `ab-gke`. -/
theorem gcp_fallback_region_and_mapped_witness :
    pyReplace "ab-gke" "-gke" = "ab" ∧
    "r1" ∈ (get_regions_for_setups wRegistryC4 ["ab"]).1.gcp ∧
    "ab (mapped to ab-gke)" ∈ (get_regions_for_setups wRegistryC4 ["ab"]).2.1 :=
  ⟨by decide,
   (gcp_fallback_region_and_mapped wRegistryC4 ["ab"] "ab" "ab-gke" "r1"
      ⟨some "r1", none, none⟩ (by decide) (by decide) (by decide) (by decide)
      (by decide) (by decide) rfl (by decide)).1,
   (gcp_fallback_region_and_mapped wRegistryC4 ["ab"] "ab" "ab-gke" "r1"
      ⟨some "r1", none, none⟩ (by decide) (by decide) (by decide) (by decide)
      (by decide) (by decide) rfl (by decide)).2⟩

/-! ## C5: clusters with a location but no country (lemmas) -/

theorem cStep_missing_mono (region : String) (st : CState) (n : String)
    (info : RInfo) (x : String)
    (hx : x ∈ st.missing_country_clusters) :
    x ∈ (cStep region st n info).missing_country_clusters := by
  unfold cStep
  split_ifs <;> simp [hx]

theorem cLoop_missing_mono (region : String) (cs : List (String × RInfo)) :
    ∀ (st : CState) (x : String), x ∈ st.missing_country_clusters →
      x ∈ (cLoop region cs st).missing_country_clusters := by
  induction cs with
  | nil => intro st x hx; exact hx
  | cons p rest ih =>
    intro st x hx
    obtain ⟨n, info⟩ := p
    exact ih _ x (cStep_missing_mono region st n info x hx)

theorem cStep_missing_self (region : String) (st : CState) (n loc : String)
    (info : RInfo) (h1 : info.region = some region)
    (h2 : info.location = some loc) (h3 : loc ≠ "") (h4 : info.country = none) :
    (n ++ " (" ++ loc ++ ")") ∈ (cStep region st n info).missing_country_clusters := by
  unfold cStep
  rw [if_pos h1]
  rw [if_neg (by simp [otruthy, h4]), if_pos (by simp [otruthy, h2, h3, h4])]
  simp [h2]

theorem cLoop_missing_self (region : String) (cs : List (String × RInfo))
    (n loc : String) (info : RInfo) (hmem : (n, info) ∈ cs)
    (h1 : info.region = some region) (h2 : info.location = some loc)
    (h3 : loc ≠ "") (h4 : info.country = none) :
    ∀ st : CState,
      (n ++ " (" ++ loc ++ ")") ∈ (cLoop region cs st).missing_country_clusters := by
  induction cs with
  | nil => cases hmem
  | cons p rest ih =>
    intro st
    rcases List.mem_cons.mp hmem with heq | htail
    · subst heq
      exact cLoop_missing_mono region rest _ _
        (cStep_missing_self region st n loc info h1 h2 h3 h4)
    · obtain ⟨n', info'⟩ := p
      exact ih htail _

theorem cRegionsLoop_missing_mono (clusters : List (String × RInfo)) :
    ∀ (rs : List String) (st : CState) (x : String),
      x ∈ st.missing_country_clusters →
      x ∈ (cRegionsLoop clusters rs st).missing_country_clusters := by
  intro rs
  induction rs with
  | nil => intro st x hx; exact hx
  | cons r rest ih =>
    intro st x hx
    exact ih _ x (cLoop_missing_mono r clusters st x hx)

theorem cRegionsLoop_missing_self (clusters : List (String × RInfo))
    (region : String) (n loc : String) (info : RInfo)
    (hmem : (n, info) ∈ clusters) (h1 : info.region = some region)
    (h2 : info.location = some loc) (h3 : loc ≠ "") (h4 : info.country = none) :
    ∀ (rs : List String) (st : CState), region ∈ rs →
      (n ++ " (" ++ loc ++ ")") ∈
        (cRegionsLoop clusters rs st).missing_country_clusters := by
  intro rs
  induction rs with
  | nil => intro st hr; cases hr
  | cons r rest ih =>
    intro st hr
    rcases List.mem_cons.mp hr with heq | htail
    · subst heq
      exact cRegionsLoop_missing_mono clusters rest _ _
        (cLoop_missing_self region clusters n loc info hmem h1 h2 h3 h4 st)
    · exact ih _ htail

theorem cStep_countries_congr (region : String) (n : String) (info : RInfo)
    (st st' : CState) (h : st.countries = st'.countries) :
    (cStep region st n info).countries = (cStep region st' n info).countries := by
  unfold cStep
  split_ifs <;> simp [h]

theorem cStep_countries_none (region : String) (n : String) (info : RInfo)
    (st : CState) (h : info.country = none) :
    (cStep region st n info).countries = st.countries := by
  unfold cStep
  split_ifs with h1 h2 h3 <;> try rfl
  rw [Bool.and_eq_true] at h2
  simp [otruthy, h] at h2

theorem cLoop_countries_congr (region : String) (cs : List (String × RInfo)) :
    ∀ (st st' : CState), st.countries = st'.countries →
      (cLoop region cs st).countries = (cLoop region cs st').countries := by
  induction cs with
  | nil => intro st st' h; exact h
  | cons p rest ih =>
    intro st st' h
    obtain ⟨n, info⟩ := p
    exact ih _ _ (cStep_countries_congr region n info st st' h)

theorem cLoop_countries_filter (region name : String)
    (cs : List (String × RInfo))
    (hall : ∀ p ∈ cs, p.1 = name → p.2.country = none) :
    ∀ (st st' : CState), st.countries = st'.countries →
      (cLoop region cs st).countries =
        (cLoop region (cs.filter (fun p => !(p.1 == name))) st').countries := by
  induction cs with
  | nil => intro st st' h; exact h
  | cons p rest ih =>
    intro st st' h
    obtain ⟨n, info⟩ := p
    have hall' : ∀ p ∈ rest, p.1 = name → p.2.country = none :=
      fun p hp => hall p (List.mem_cons_of_mem _ hp)
    by_cases hn : n = name
    · have hnone : info.country = none := hall (n, info) (List.mem_cons_self _ _) hn
      have hfilter :
          ((n, info) :: rest).filter (fun p => !(p.1 == name)) =
            rest.filter (fun p => !(p.1 == name)) := by
        simp [List.filter_cons, hn]
      rw [hfilter]
      have hstep : (cStep region st n info).countries = st'.countries := by
        rw [cStep_countries_none region n info st hnone]; exact h
      exact ih hall' _ _ hstep
    · have hfilter :
          ((n, info) :: rest).filter (fun p => !(p.1 == name)) =
            (n, info) :: rest.filter (fun p => !(p.1 == name)) := by
        simp [List.filter_cons, hn]
      rw [hfilter]
      exact ih hall' _ _ (cStep_countries_congr region n info st st' h)

theorem cRegionsLoop_countries_filter (clusters : List (String × RInfo))
    (name : String)
    (hall : ∀ p ∈ clusters, p.1 = name → p.2.country = none) :
    ∀ (rs : List String) (st st' : CState), st.countries = st'.countries →
      (cRegionsLoop clusters rs st).countries =
        (cRegionsLoop (clusters.filter (fun p => !(p.1 == name))) rs st').countries := by
  intro rs
  induction rs with
  | nil => intro st st' h; exact h
  | cons r rest ih =>
    intro st st' h
    exact ih _ _ (cLoop_countries_filter r name clusters hall st st' h)

/-- C5: a cluster entry whose region appears in the resolved region list of
its cloud partition and that has a (non-empty) location but no country
field always appears in the `missing_country_clusters` diagnostics, and
never contributes any code to the returned country list: deleting every
entry with that cluster name from the registry leaves the country list
unchanged.  The hypothesis `hall` says all entries bearing the name lack a
country field; a registry read from JSON has unique keys per partition, so
it reduces to the entry itself. -/
theorem missing_country_cluster_reported (reg : CRegistry) (regs : Regions)
    (n : String) (info : RInfo) (loc r : String)
    (hloc : info.location = some loc) (hloc0 : loc ≠ "")
    (hcty : info.country = none) (hreg : info.region = some r)
    (hall : ∀ p, p ∈ reg.aws_eks_clusters ++ reg.gcp_gke_clusters →
      p.1 = n → p.2.country = none)
    (hcase : ((n, info) ∈ reg.aws_eks_clusters ∧ r ∈ regs.aws) ∨
             ((n, info) ∈ reg.gcp_gke_clusters ∧ r ∈ regs.gcp)) :
    (n ++ " (" ++ loc ++ ")") ∈
      (get_countries_for_regions reg regs).missing_country_clusters ∧
    (get_countries_for_regions (eraseCluster reg n) regs).countries =
      (get_countries_for_regions reg regs).countries := by
  have hallA : ∀ p ∈ reg.aws_eks_clusters, p.1 = n → p.2.country = none :=
    fun p hp => hall p (List.mem_append_left _ hp)
  have hallG : ∀ p ∈ reg.gcp_gke_clusters, p.1 = n → p.2.country = none :=
    fun p hp => hall p (List.mem_append_right _ hp)
  constructor
  · unfold get_countries_for_regions
    rcases hcase with ⟨hmem, hr⟩ | ⟨hmem, hr⟩
    · exact cRegionsLoop_missing_mono _ _ _ _
        (cRegionsLoop_missing_self reg.aws_eks_clusters r n loc info hmem
          hreg hloc hloc0 hcty regs.aws _ hr)
    · exact cRegionsLoop_missing_self reg.gcp_gke_clusters r n loc info hmem
        hreg hloc hloc0 hcty regs.gcp _ hr
  · unfold get_countries_for_regions eraseCluster
    dsimp only
    have h1 := cRegionsLoop_countries_filter reg.aws_eks_clusters n hallA
      regs.aws ⟨[], [], []⟩ ⟨[], [], []⟩ rfl
    exact (cRegionsLoop_countries_filter reg.gcp_gke_clusters n hallG
      regs.gcp (cRegionsLoop reg.aws_eks_clusters regs.aws ⟨[], [], []⟩)
      (cRegionsLoop (reg.aws_eks_clusters.filter (fun p => !(p.1 == n)))
        regs.aws ⟨[], [], []⟩) h1).symm

/-- Witness for C5 at a concrete input: a GCP cluster with a location and no
country is reported and contributes nothing. -/
theorem missing_country_cluster_reported_witness :
    "r1" ∈ (Regions.mk [] ["r1"]).gcp ∧
    "c1 (SC)" ∈
      (get_countries_for_regions wRegistryC5 ⟨[], ["r1"]⟩).missing_country_clusters ∧
    (get_countries_for_regions (eraseCluster wRegistryC5 "c1")
        ⟨[], ["r1"]⟩).countries =
      (get_countries_for_regions wRegistryC5 ⟨[], ["r1"]⟩).countries :=
  ⟨by decide,
   (missing_country_cluster_reported wRegistryC5 ⟨[], ["r1"]⟩ "c1"
      ⟨some "r1", some "SC", none⟩ "SC" "r1" rfl (by decide) rfl rfl
      (by decide) (Or.inr ⟨by decide, by decide⟩)).1,
   (missing_country_cluster_reported wRegistryC5 ⟨[], ["r1"]⟩ "c1"
      ⟨some "r1", some "SC", none⟩ "SC" "r1" rfl (by decide) rfl rfl
      (by decide) (Or.inr ⟨by decide, by decide⟩)).2⟩

/-! ## C7: acceptance condition of the AddingCountry step (corrected) -/

theorem hasKey_iff_lookupLast (l : List (String × String)) (k : String) :
    hasKey l k = true ↔ (lookupLast l k).isSome := by
  unfold hasKey lookupLast
  rw [List.any_eq_true, Option.isSome_map', List.find?_isSome]
  constructor
  · rintro ⟨p, hp, hk⟩
    exact ⟨p, List.mem_reverse.mpr hp, hk⟩
  · rintro ⟨p, hp, hk⟩
    exact ⟨p, List.mem_reverse.mp hp, hk⟩

/-- C7 counterexample: with the table `US -> United States`, the input
`United` matches the display name `United States` case-insensitively as a
substring—so the claim says it is accepted—but `_add_country_to_list`
rejects it and leaves the working list unchanged: the code compares the
lowercased input against the whole lowercased display name for equality,
not for a substring match. -/
theorem add_country_counterexample :
    claimAddAccepts "United" cexCodesUS = true ∧
    (add_country_to_list "United" true ["GB"] cexCodesUS).2 = none ∧
    (add_country_to_list "United" true ["GB"] cexCodesUS).1 = ["GB"] := by
  decide

/-- C7 (amended): in the AddingCountry step an input is accepted exactly
when its stripped-and-uppercased form is a known country code, or its
lowercased form equals the lowercase of some display name in full (an exact
dictionary-key lookup, not a substring match); any input matching neither
is rejected and the working country list is left unchanged. -/
theorem add_country_accept_iff (rawInput : String) (confirm : Bool)
    (current_items : List String) (codes : List (String × String))
    (hne : pyUpper (pyStrip rawInput) ≠ "") :
    ((add_country_to_list rawInput confirm current_items codes).2.isSome ↔
      (hasKey codes (pyUpper (pyStrip rawInput)) = true ∨
        hasKey (reverseCodes codes) (pyLower (pyUpper (pyStrip rawInput))) = true)) ∧
    ((add_country_to_list rawInput confirm current_items codes).2 = none →
      (add_country_to_list rawInput confirm current_items codes).1 =
        current_items) := by
  have tail2 : ∀ c : String,
      (if c ∈ current_items then (current_items, some c)
       else if confirm = true then (current_items ++ [c], some c)
       else (current_items, some c)).2 = some c := by
    intro c; split_ifs <;> rfl
  unfold add_country_to_list addLookup
  rw [if_neg hne]
  by_cases hk : hasKey codes (pyUpper (pyStrip rawInput)) = true
  · rw [if_pos hk]
    refine ⟨⟨fun _ => Or.inl hk, fun _ => ?_⟩, fun h => ?_⟩
    · rw [tail2]; rfl
    · rw [tail2] at h; cases h
  · rw [if_neg hk]
    rcases hl : lookupLast (reverseCodes codes)
        (pyLower (pyUpper (pyStrip rawInput))) with _ | c
    · refine ⟨⟨fun h => ?_, fun h => ?_⟩, fun _ => rfl⟩
      · simp at h
      · rcases h with h | h
        · exact absurd h hk
        · rw [hasKey_iff_lookupLast, hl] at h
          simp at h
    · refine ⟨⟨fun _ => Or.inr ?_, fun _ => ?_⟩, fun h => ?_⟩
      · rw [hasKey_iff_lookupLast, hl]; rfl
      · rw [tail2]; rfl
      · rw [tail2] at h; cases h

/-- Witness for C7 at a concrete input: `us` resolves to the code `US`. -/
theorem add_country_accept_iff_witness :
    pyUpper (pyStrip "us") ≠ "" ∧
    ((add_country_to_list "us" true [] cexCodesUS).2.isSome ↔
      (hasKey cexCodesUS (pyUpper (pyStrip "us")) = true ∨
        hasKey (reverseCodes cexCodesUS)
          (pyLower (pyUpper (pyStrip "us"))) = true)) :=
  ⟨by decide,
   (add_country_accept_iff "us" true [] cexCodesUS (by decide)).1⟩

/-! ## C8: the RemovingCountry step (corrected) -/

theorem findRemoveMatch_eq_none (choice : String)
    (codes : List (String × String)) :
    ∀ current : List String,
      (∀ c ∈ current, pyInStr (pyLower choice) (pyLower (nameOf codes c)) = false) →
      findRemoveMatch choice codes current = none := by
  intro current
  induction current with
  | nil => intro _; rfl
  | cons c rest ih =>
    intro h
    unfold findRemoveMatch
    rw [if_neg (by simp [h c (List.mem_cons_self _ _)])]
    exact ih fun d hd => h d (List.mem_cons_of_mem _ hd)

/-- C8 counterexample: with `US -> United States` and `GB -> United
Kingdom` both in the working list, the input `united` is ambiguous (a
case-insensitive substring of both display names), yet
`_remove_country_from_list` does not leave the list unchanged: it removes
the first match `US`. -/
theorem remove_country_counterexample :
    pyInStr (pyLower "united") (pyLower "United States") = true ∧
    pyInStr (pyLower "united") (pyLower "United Kingdom") = true ∧
    remove_country_from_list "united" true ["US", "GB"] cexCodesUK = ["GB"] ∧
    remove_country_from_list "united" true ["US", "GB"] cexCodesUK ≠
      ["US", "GB"] := by
  decide

/-- C8 (amended): in the RemovingCountry step an absent input (matching no
listed country's code and no listed display name as a case-insensitive
substring) leaves the working country list unchanged; an ambiguous input,
however, does not leave the list unchanged: the first listed country whose
display name contains the input is removed once confirmed, provided its
code is a non-empty string (the code's `if country_to_remove:` truthiness
test sends a matched empty-string code to the not-found branch). -/
theorem remove_country_behavior (rawChoice : String) (confirm : Bool)
    (current_items : List String) (codes : List (String × String)) :
    ((pyUpper (pyStrip rawChoice) ∉ current_items) →
      (∀ c ∈ current_items,
        pyInStr (pyLower (pyStrip rawChoice)) (pyLower (nameOf codes c)) = false) →
      remove_country_from_list rawChoice confirm current_items codes =
        current_items) ∧
    (∀ c : String, c ≠ "" → pyStrip rawChoice ≠ "" →
      pyUpper (pyStrip rawChoice) ∉ current_items →
      findRemoveMatch (pyStrip rawChoice) codes current_items = some c →
      remove_country_from_list rawChoice true current_items codes =
        current_items.erase c) := by
  constructor
  · intro hcode hname
    simp only [remove_country_from_list]
    by_cases h1 : current_items = []
    · rw [if_pos h1]
    · rw [if_neg h1]
      by_cases h2 : pyStrip rawChoice = ""
      · rw [if_pos h2]
      · rw [if_neg h2, if_neg hcode, findRemoveMatch_eq_none (pyStrip rawChoice)
          codes current_items hname]
  · intro c hc hne hcode hfind
    simp only [remove_country_from_list]
    by_cases h1 : current_items = []
    · rw [h1] at hfind
      exact absurd hfind (by simp [findRemoveMatch])
    · rw [if_neg h1, if_neg hne, if_neg hcode, hfind]
      simp [hc]

/-- Witness for C8 at concrete inputs: an absent input leaves the list
unchanged, and an ambiguous one removes the first match. -/
theorem remove_country_behavior_witness :
    remove_country_from_list "zz" true ["US"] cexCodesUS = ["US"] ∧
    remove_country_from_list "united" true ["US", "GB"] cexCodesUK =
      (["US", "GB"] : List String).erase "US" :=
  ⟨(remove_country_behavior "zz" true ["US"] cexCodesUS).1 (by decide)
      (by decide),
   (remove_country_behavior "united" true ["US", "GB"] cexCodesUK).2 "US"
      (by decide) (by decide) (by decide) (by decide)⟩

/-! ## C9: error policy of the account scan -/

theorem scanAccounts_skip (pre : List (String × AwsResult)) :
    (∀ p ∈ pre, p.2 = AwsResult.clientErr "NoSuchDistribution" ∨
      p.2 = AwsResult.clientErr "AccessDenied") →
    ∀ (rest : List (String × AwsResult)) (q : List String),
      scanAccounts (pre ++ rest) q = scanAccounts rest (q ++ pre.map Prod.fst) := by
  induction pre with
  | nil => intro _ rest q; simp
  | cons p pre' ih =>
    intro hpre rest q
    obtain ⟨nm, res⟩ := p
    have hih := ih fun p hp => hpre p (List.mem_cons_of_mem _ hp)
    rcases hpre (nm, res) (List.mem_cons_self _ _) with h | h <;>
        simp only at h <;> subst h <;>
      simp [scanAccounts, List.append_eq, hih rest (q ++ [nm]),
        List.append_assoc]

/-- C9: during a distribution lookup, a `NoSuchDistribution` or
`AccessDenied` result for one account continues the scan with the next
account, while an `InvalidArgument` (malformed identifier) error terminates
the scan immediately with a failure result: the queried-account list stops
at the account that raised it and the result is `none`. -/
theorem get_distribution_info_error_policy (id nm : String)
    (pre post : List (String × AwsResult))
    (hid : pyStrip id ≠ "")
    (hpre : ∀ p ∈ pre, p.2 = AwsResult.clientErr "NoSuchDistribution" ∨
      p.2 = AwsResult.clientErr "AccessDenied") :
    (∀ (n : String) (rest : List (String × AwsResult)) (q : List String),
      scanAccounts ((n, AwsResult.clientErr "NoSuchDistribution") :: rest) q =
        scanAccounts rest (q ++ [n])) ∧
    (∀ (n : String) (rest : List (String × AwsResult)) (q : List String),
      scanAccounts ((n, AwsResult.clientErr "AccessDenied") :: rest) q =
        scanAccounts rest (q ++ [n])) ∧
    get_distribution_info id
        (pre ++ (nm, AwsResult.clientErr "InvalidArgument") :: post) =
      (none, pre.map Prod.fst ++ [nm]) := by
  refine ⟨fun n rest q => by simp [scanAccounts],
    fun n rest q => by simp [scanAccounts],
    ?_⟩
  unfold get_distribution_info
  rw [if_neg hid, scanAccounts_skip pre hpre _ []]
  simp [scanAccounts]

/-- Witness for C9 at a concrete input: a not-found account is scanned past,
and the scan stops at the `InvalidArgument` account, never reaching the
third account that would have succeeded. -/
theorem get_distribution_info_error_policy_witness :
    pyStrip "E123" ≠ "" ∧
    get_distribution_info "E123"
        [("a1", AwsResult.clientErr "NoSuchDistribution"),
         ("a2", AwsResult.clientErr "InvalidArgument"),
         ("a3", AwsResult.okDist true)] =
      (none, ["a1", "a2"]) :=
  ⟨by decide,
   (get_distribution_info_error_policy "E123" "a2"
      [("a1", AwsResult.clientErr "NoSuchDistribution")]
      [("a3", AwsResult.okDist true)] (by decide) (by decide)).2.2⟩

/-! ## C10: the frame of an applied change -/

/-- C10: when edits are applied, the submitted configuration is the
session-start snapshot with only the geo-restriction entry replaced—every
field outside `Restrictions/GeoRestriction` keeps its session-start value,
including the other keys of `Restrictions`—while the concurrency token sent
with the update is the one refetched immediately before the update.  The
refetched record `remote` is arbitrary: even if the remote config changed
since the session started, only its `ETag` is used and every
non-geo-restriction field is written back with its session-start value. -/
theorem apply_changes_frame (session : FetchResult) (id rtype : String)
    (items : List String) (remote : FetchResult) (uc : UpdateCall)
    (h : apply_changes_to_cloudfront session id rtype items
        (Except.ok remote) = some uc) :
    uc.id = id ∧
    uc.ifMatch = remote.etag ∧
    uc.distributionConfig.other = session.dconfig.other ∧
    (uc.distributionConfig.restrictions.map RestrictionsRec.other).getD [] =
      (session.dconfig.restrictions.map RestrictionsRec.other).getD [] ∧
    (rtype ≠ "none" →
      uc.distributionConfig.restrictions.map RestrictionsRec.geo =
        some (some ⟨rtype, items.length, items⟩)) ∧
    (rtype = "none" →
      (uc.distributionConfig.restrictions.map RestrictionsRec.geo).getD none =
        none) := by
  unfold apply_changes_to_cloudfront at h
  simp only [Option.some.injEq] at h
  subst h
  refine ⟨rfl, rfl, ?_, ?_, ?_, ?_⟩
  · unfold updatedConfig
    split_ifs with hn
    · rcases session.dconfig.restrictions with _ | r <;> simp
      split_ifs <;> rfl
    · rcases session.dconfig.restrictions with _ | r <;> simp
  · unfold updatedConfig
    split_ifs with hn
    · rcases hr : session.dconfig.restrictions with _ | r
      · simp [hr]
      · simp only [hr]
        split_ifs with ho
        · simp [ho]
        · simp
    · rcases hr : session.dconfig.restrictions with _ | r <;> simp [hr]
  · intro hn
    unfold updatedConfig
    rw [if_neg hn]
    rcases hr : session.dconfig.restrictions with _ | r <;> simp [hr]
  · intro hn
    unfold updatedConfig
    rw [if_pos hn]
    rcases hr : session.dconfig.restrictions with _ | r
    · simp [hr]
    · simp only [hr]
      split_ifs with ho <;> simp

/-- Witness for C10 at a concrete input: the session-start config carried a
`CallerReference` and an extra `Restrictions` key; the remote record changed
before the apply, yet the update call writes the session-start values and
uses the fresh `ETag`. -/
theorem apply_changes_frame_witness :
    cexUpdateC10.ifMatch = cexRemoteC10.etag ∧
    cexUpdateC10.distributionConfig.other = cexSessionC10.dconfig.other ∧
    (cexUpdateC10.distributionConfig.restrictions.map RestrictionsRec.geo =
      some (some ⟨"whitelist", (["US"] : List String).length, ["US"]⟩)) :=
  ⟨(apply_changes_frame cexSessionC10 "E1" "whitelist" ["US"] cexRemoteC10
      cexUpdateC10 rfl).2.1,
   (apply_changes_frame cexSessionC10 "E1" "whitelist" ["US"] cexRemoteC10
      cexUpdateC10 rfl).2.2.1,
   (apply_changes_frame cexSessionC10 "E1" "whitelist" ["US"] cexRemoteC10
      cexUpdateC10 rfl).2.2.2.2.1 (by decide)⟩

end CdnGeo
